import Mathlib

/-
  Verification of the Upload Operation Tracking & Synchronization Engine
  of the agent-deep-research repository.

  Shallow embedding conventions:
  - Filesystem paths are lists of name components (`FsPath`); `path.join`
    appends one component, `path.basename` takes the last component.
  - Directory enumeration (`fs.readdirSync` with file types) is embedded as
    an explicit list of entries, each a name with a kind.
  - The remote service call `uploadToFileSearchStore` is a function
    parameter returning `Except`: `Except.error` embeds a rejected promise.
  - Sources present in the repository (FileUploader.ts) are embedded from
    the source; components whose implementation is not in the repository
    (WorkspaceConfig.ts, UploadOperationManager, the MCP tool handlers) are
    modelled from the specification, as marked on each definition.
-/

namespace DeepResearch

/-- A filesystem path, embedded as its list of name components. -/
abbrev FsPath := List String

/-- Embedding of `path.join(dir, name)` for a single extra component. -/
def pathJoin (dir : FsPath) (name : String) : FsPath := dir ++ [name]

/-- Embedding of `path.basename`: the last component of a path. -/
def basename (p : FsPath) : String := p.getLastD ""

/-- Rendering of a path for user-facing messages. -/
def pathToString (p : FsPath) : String := String.intercalate "/" p

/-- The kind of a directory entry or stat result: regular file, directory,
or anything else (socket, device, ...). -/
inductive EntryKind where
  | file
  | directory
  | other
deriving DecidableEq, Repr

/-- One entry returned by `fs.readdirSync(dirPath, { withFileTypes: true })`:
a name together with its kind. `readdirSync` lists only immediate entries. -/
structure Dirent where
  name : String
  kind : EntryKind
deriving DecidableEq, Repr

/-- Embedding of FileUploader.ts lines 9-12: keep the immediate entries that
are regular files and join each name onto the directory path.
`const files = entries.filter((entry) => entry.isFile()).map((entry) => path.join(dirPath, entry.name));` -/
def regularFilePaths (dirPath : FsPath) (entries : List Dirent) : List FsPath :=
  (entries.filter fun e => e.kind == EntryKind.file).map fun e => pathJoin dirPath e.name

/-- The argument record of one `uploadToFileSearchStore` remote call
(FileUploader.ts lines 17-24). -/
structure UploadRequest where
  fileSearchStoreName : String
  file : FsPath
  displayName : String
deriving DecidableEq, Repr

/-- The request FileUploader.ts builds for one file: the store name, the file
path, and the file's basename as display name. -/
def mkUploadRequest (storeName : String) (filePath : FsPath) : UploadRequest :=
  { fileSearchStoreName := storeName, file := filePath, displayName := basename filePath }

/-- Embedding of the sequential upload loop of FileUploader.ts lines 14-27:
await one remote call per file, accumulate the returned operations in order.
A rejected call (Except.error) propagates and ends the loop, as the source
has no try/catch around the await. -/
def uploadLoop {Op : Type} (remote : UploadRequest → Except String Op)
    (storeName : String) : List FsPath → Except String (List Op)
  | [] => Except.ok []
  | fp :: rest => do
    let op ← remote (mkUploadRequest storeName fp)
    let ops ← uploadLoop remote storeName rest
    Except.ok (op :: ops)

/-- Embedding of `FileUploader.uploadDirectory` (FileUploader.ts lines 8-28):
enumerate immediate regular files, then upload each sequentially. The
optional chunking config is forwarded opaquely in the source and is omitted
here as it affects no claim. -/
def uploadDirectory {Op : Type} (remote : UploadRequest → Except String Op)
    (dirPath : FsPath) (storeName : String) (entries : List Dirent) :
    Except String (List Op) :=
  uploadLoop remote storeName (regularFilePaths dirPath entries)

/-- The trace of remote calls `uploadDirectory` issues, in order: one call
per file until (and including) the first failing call, since a rejected
await aborts the loop. -/
def uploadCalls {Op : Type} (remote : UploadRequest → Except String Op)
    (storeName : String) : List FsPath → List UploadRequest
  | [] => []
  | fp :: rest =>
    let r := mkUploadRequest storeName fp
    match remote r with
    | Except.error _ => [r]
    | Except.ok _ => r :: uploadCalls remote storeName rest

/-- Status of an upload operation record (spec section 3):
`pending | in_progress | completed | failed`. -/
inductive UploadStatus where
  | pending
  | in_progress
  | completed
  | failed
deriving DecidableEq, Repr

/-- One entry of `failedFilesList`: a `{file, error}` pair. -/
structure FailedFile where
  file : FsPath
  error : String
deriving DecidableEq, Repr

/-- The UploadOperationRecord data entity (spec section 3; field list as in
the records of index.test.ts lines 296-336). Timestamps are opaque strings. -/
structure UploadOperationRecord where
  id : String
  status : UploadStatus
  path : FsPath
  storeName : String
  smartSync : Bool
  totalFiles : Nat
  completedFiles : Nat
  skippedFiles : Nat
  failedFiles : Nat
  failedFilesList : List FailedFile
  startedAt : String
  completedAt : Option String
deriving DecidableEq, Repr

/-- WorkspaceState (spec section 3): research ids in insertion order, the
store-name mapping and the operation mapping as association lists in key
insertion order. -/
structure WorkspaceState where
  researchIds : List String
  fileSearchStores : List (String × String)
  uploadOperations : List (String × UploadOperationRecord)
deriving DecidableEq, Repr

/-- The empty workspace state `{researchIds: [], fileSearchStores: {}, uploadOperations: {}}`. -/
def emptyWorkspaceState : WorkspaceState :=
  { researchIds := [], fileSearchStores := [], uploadOperations := [] }

/-- Result of `load()`: the state, and whether a warning was logged. -/
structure LoadResult where
  state : WorkspaceState
  warned : Bool
deriving DecidableEq, Repr

namespace WorkspaceConfigManager

/-- Modelled from the spec: `WorkspaceConfigManager.load` is not under src/
(only WorkspaceConfig.test.ts is). "Reads the backing document; if absent,
returns the empty state; if present but not parsable as valid JSON matching
the schema, logs a warning and returns the empty state (never raises to the
caller)." The backing document is `Option String` (absent or raw content);
JSON parsing and schema validation are the `parse` parameter. Totality of
the function embeds "never raises". -/
def load (parse : String → Option WorkspaceState) :
    Option String → LoadResult
  | none => { state := emptyWorkspaceState, warned := false }
  | some raw =>
    match parse raw with
    | none => { state := emptyWorkspaceState, warned := true }
    | some s => { state := s, warned := false }

/-- Modelled from the spec: `WorkspaceConfigManager.addResearchId` is not
under src/. "loads, appends `id` to `researchIds` only if absent (idempotent
— duplicate calls with the same id are no-ops), saves if changed." Returns
the state after the call and whether a save was performed. -/
def addResearchId (s : WorkspaceState) (id : String) : WorkspaceState × Bool :=
  if id ∈ s.researchIds then (s, false)
  else ({ s with researchIds := s.researchIds ++ [id] }, true)

/-- Modelled from the spec: `WorkspaceConfigManager.getUploadOperation` is
not under src/. "record or not-found sentinel; does not mutate state." -/
def getUploadOperation (s : WorkspaceState) (id : String) :
    Option UploadOperationRecord :=
  s.uploadOperations.lookup id

end WorkspaceConfigManager

/-- Planner decision for one discovered file. -/
inductive Decision where
  | upload
  | skip
deriving DecidableEq, Repr

/-- One work-list item: a file path with its planner decision. -/
structure WorkItem where
  filePath : FsPath
  decision : Decision
deriving DecidableEq, Repr

/-- Modelled from the spec: the Synchronization Planner's directory
expansion is not under src/ (FileUploader.ts has no smartSync logic).
Spec section 4.2: enumerate immediate entries that are regular files; if
`smartSync` is false the decision is always `upload`; if true the decision
is `skip` exactly when the file is judged unchanged since a prior
successful upload to the same store. The judgment is the `unchanged`
parameter (its exact signature is an open question in the spec). -/
def planDirectory (smartSync : Bool) (unchanged : FsPath → Bool)
    (dirPath : FsPath) (entries : List Dirent) : List WorkItem :=
  (regularFilePaths dirPath entries).map fun fp =>
    { filePath := fp,
      decision := if smartSync && unchanged fp then Decision.skip else Decision.upload }

/-- Outcome of one remote per-item upload call, as seen by the Manager. -/
inductive ItemResult where
  | success
  | failure (err : String)
deriving DecidableEq, Repr

/-- Modelled from the spec: `UploadOperationManager.createOperation` is not
under src/ (only mocked in index.test.ts). Spec section 4.3: a new record in
`pending`, counts zeroed, `startedAt` set at creation, `completedAt` absent. -/
def createOperation (opId : String) (target : FsPath) (storeName : String)
    (smartSync : Bool) (now : String) : UploadOperationRecord :=
  { id := opId, status := UploadStatus.pending, path := target,
    storeName := storeName, smartSync := smartSync,
    totalFiles := 0, completedFiles := 0, skippedFiles := 0, failedFiles := 0,
    failedFilesList := [], startedAt := now, completedAt := none }

/-- Modelled from the spec: the Manager's per-item step is not under src/.
Spec section 4.3: on `skip`, increment `skippedFiles`; on `upload`, on
success increment `completedFiles`; on failure increment `failedFiles` and
append the `{file, error}` pair to `failedFilesList`. -/
def processItem (remote : FsPath → ItemResult) (r : UploadOperationRecord)
    (w : WorkItem) : UploadOperationRecord :=
  match w.decision with
  | Decision.skip => { r with skippedFiles := r.skippedFiles + 1 }
  | Decision.upload =>
    match remote w.filePath with
    | ItemResult.success => { r with completedFiles := r.completedFiles + 1 }
    | ItemResult.failure e =>
      { r with failedFiles := r.failedFiles + 1,
               failedFilesList := r.failedFilesList ++ [{ file := w.filePath, error := e }] }

/-- Modelled from the spec: the Manager's sequential work-list loop is not
under src/. Processes every item in order; after each item the updated
record is persisted, so the returned trace holds one snapshot per item.
A failing item updates the record and the loop continues. -/
def runItems (remote : FsPath → ItemResult) (r : UploadOperationRecord) :
    List WorkItem → UploadOperationRecord × List UploadOperationRecord
  | [] => (r, [])
  | w :: ws =>
    let r1 := processItem remote r w
    ((runItems remote r1 ws).1, r1 :: (runItems remote r1 ws).2)

/-- Modelled from the spec: `UploadOperationManager.run` is not under src/.
Spec section 4.3: transition to `in_progress` with `totalFiles` fixed to the
work-list length and persist; process the items sequentially; then set the
terminal status (`completed` iff `failedFiles == 0`, else `failed`) and
`completedAt`, and persist. Returns the final record and the full list of
persisted snapshots. -/
def runOperation (remote : FsPath → ItemResult) (r0 : UploadOperationRecord)
    (ws : List WorkItem) (finishedAt : String) :
    UploadOperationRecord × List UploadOperationRecord :=
  let rStart := { r0 with status := UploadStatus.in_progress, totalFiles := ws.length }
  let rEnd := (runItems remote rStart ws).1
  let rFinal :=
    { rEnd with
      status := if rEnd.failedFiles = 0 then UploadStatus.completed else UploadStatus.failed,
      completedAt := some finishedAt }
  (rFinal, rStart :: ((runItems remote rStart ws).2 ++ [rFinal]))

/-- Embedding of JavaScript `Math.round` on rationals: round half away
from zero for non-negative inputs, i.e. the floor of `q + 1/2`. -/
def mathRound (q : ℚ) : ℤ := Int.floor (q + 1/2)

/-- Modelled from the spec: the Status Reporter's percentage is not under
src/ (index.test.ts lines 296-317 pin the value 70 for 7 of 10 files).
`percentage = round(100 * (completedFiles + skippedFiles + failedFiles) / totalFiles)`,
and 0 when `totalFiles` is 0. -/
def percentage (totalFiles done : Nat) : ℤ :=
  if totalFiles = 0 then 0 else mathRound (100 * (done : ℚ) / (totalFiles : ℚ))

/-- The projection returned by the Status Reporter: the stored record plus
the derived percentage. -/
structure StatusReport where
  record : UploadOperationRecord
  percentage : ℤ
deriving DecidableEq, Repr

/-- Modelled from the spec: the `file_search_upload_status` handler is not
under src/ (only index.test.ts is). "if not found, signals a not-found
condition; otherwise returns the stored record plus a derived percentage";
a pure projection of the state, which it never mutates. -/
def report (s : WorkspaceState) (opId : String) : Option StatusReport :=
  match WorkspaceConfigManager.getUploadOperation s opId with
  | none => none
  | some r =>
    some { record := r,
           percentage := percentage r.totalFiles
             (r.completedFiles + r.skippedFiles + r.failedFiles) }

/-- Modelled from the spec: the `file_search_upload` handler is not under
src/ (only index.test.ts is). Input errors — path does not exist, or is
neither a regular file nor a directory — are detected before any record is
created and reported to the caller with the state unmutated
(index.test.ts lines 184-217); otherwise a new pending record is stored
under a fresh operation id. `pathExists` and `stat` embed the
`fs.existsSync` and `fs.statSync` results for the target. -/
def fileSearchUpload (s : WorkspaceState) (target : FsPath) (pathExists : Bool)
    (stat : EntryKind) (storeName : String) (smartSync : Bool)
    (opId : String) (now : String) : Except String String × WorkspaceState :=
  if pathExists then
    match stat with
    | EntryKind.other =>
      (Except.error ("Path is not a file or directory: " ++ pathToString target), s)
    | _ =>
      let record := createOperation opId target storeName smartSync now
      (Except.ok ("Upload started. Operation ID: " ++ opId),
       { s with uploadOperations := s.uploadOperations ++ [(opId, record)] })
  else
    (Except.error ("Path not found: " ++ pathToString target), s)

/-- A JSON value, for the embedding of `JSON.stringify`. -/
inductive Json where
  | str (s : String)
  | num (n : Int)
  | bool (b : Bool)
  | arr (items : List Json)
  | obj (fields : List (String × Json))

/-- Escaping of one character inside a JSON string literal. -/
def jsonEscapeChar (c : Char) : String :=
  if c = '"' then "\\\""
  else if c = '\\' then "\\\\"
  else if c = '\n' then "\\n"
  else if c = '\t' then "\\t"
  else if c = '\r' then "\\r"
  else String.singleton c

/-- A JSON string literal: quoted and escaped. -/
def jsonQuote (s : String) : String :=
  "\"" ++ String.join (s.toList.map jsonEscapeChar) ++ "\""

/-- One output line of the pretty printer: indentation width and content.
The final text of the line is the indentation's spaces followed by the
content; keeping the width explicit lets indentation be reasoned about
without string arithmetic. -/
abbrev JLine := Nat × String

/-- Add to the indentation of the first line (used to indent a collection
item; by construction nested first lines carry indentation 0). -/
def bumpFirst (n : Nat) : List JLine → List JLine
  | [] => []
  | (m, s) :: rest => (n + m, s) :: rest

/-- Append the separating comma to the last line of a collection item. -/
def addComma : List JLine → List JLine
  | [] => []
  | [(m, s)] => [(m, s ++ ",")]
  | l :: rest => l :: addComma rest

/-- Join the rendered items of a collection: every item but the last gets a
trailing comma, as `JSON.stringify` prints. -/
def joinItems : List (List JLine) → List JLine
  | [] => []
  | [ls] => ls
  | ls :: rest => addComma ls ++ joinItems rest

/-- Merge an object key onto the first line of its rendered value:
`"key": value`. -/
def withKey (k : String) : List JLine → List JLine
  | [] => [(0, jsonQuote k ++ ": ")]
  | (m, s) :: rest => (m, jsonQuote k ++ ": " ++ s) :: rest

/-- The line layout of `JSON.stringify(value, null, ind)` at nesting depth
`d`: scalars on one line; empty collections as two adjacent brackets;
non-empty collections opened on the current line, one item per line
indented by `ind * (d+1)`, and closed at indentation `ind * d`. The first
line always carries indentation 0, supplied by the enclosing context. -/
def renderLines (ind : Nat) : Nat → Json → List JLine
  | _, Json.str s => [(0, jsonQuote s)]
  | _, Json.num n => [(0, toString n)]
  | _, Json.bool b => [(0, if b then "true" else "false")]
  | d, Json.arr items =>
    if items.isEmpty then [(0, "[]")]
    else
      (0, "[") ::
        (joinItems (items.attach.map fun x =>
          bumpFirst (ind * (d + 1)) (renderLines ind (d + 1) x.1)) ++ [(ind * d, "]")])
  | d, Json.obj fields =>
    if fields.isEmpty then [(0, "\x7b\x7d")]
    else
      (0, "\x7b") ::
        (joinItems (fields.attach.map fun x =>
          bumpFirst (ind * (d + 1)) (withKey x.1.1 (renderLines ind (d + 1) x.1.2))) ++
          [(ind * d, "\x7d")])
termination_by _ j => sizeOf j
decreasing_by
  · simp_wf
    have h := List.sizeOf_lt_of_mem x.2
    omega
  · simp_wf
    have h := List.sizeOf_lt_of_mem x.2
    have h2 : sizeOf (x.1).2 < sizeOf x.1 := by
      obtain ⟨k, v⟩ := x.1
      simp only [Prod.mk.sizeOf_spec]
      omega
    omega

/-- Spaces of a given width. -/
def indentSpaces (n : Nat) : String := String.mk (List.replicate n ' ')

/-- Embedding of `JSON.stringify(value, null, ind)`: assemble the laid-out
lines, prefixing each with its indentation. -/
def jsonStringify (ind : Nat) (j : Json) : String :=
  String.intercalate "\n" ((renderLines ind 0 j).map fun p => indentSpaces p.1 ++ p.2)

/-- Serialization of a status value. -/
def statusToString : UploadStatus → String
  | UploadStatus.pending => "pending"
  | UploadStatus.in_progress => "in_progress"
  | UploadStatus.completed => "completed"
  | UploadStatus.failed => "failed"

/-- JSON form of one `{file, error}` pair. -/
def failedFileToJson (f : FailedFile) : Json :=
  Json.obj [("file", Json.str (pathToString f.file)), ("error", Json.str f.error)]

/-- JSON form of an upload operation record, `completedAt` present only
once terminal. -/
def recordToJson (r : UploadOperationRecord) : Json :=
  Json.obj
    ([("id", Json.str r.id),
      ("status", Json.str (statusToString r.status)),
      ("path", Json.str (pathToString r.path)),
      ("storeName", Json.str r.storeName),
      ("smartSync", Json.bool r.smartSync),
      ("totalFiles", Json.num r.totalFiles),
      ("completedFiles", Json.num r.completedFiles),
      ("skippedFiles", Json.num r.skippedFiles),
      ("failedFiles", Json.num r.failedFiles),
      ("failedFilesList", Json.arr (r.failedFilesList.map failedFileToJson)),
      ("startedAt", Json.str r.startedAt)] ++
     (match r.completedAt with
      | none => []
      | some t => [("completedAt", Json.str t)]))

/-- JSON form of the full workspace document: all three collections. -/
def stateToJson (s : WorkspaceState) : Json :=
  Json.obj
    [("researchIds", Json.arr (s.researchIds.map Json.str)),
     ("fileSearchStores", Json.obj (s.fileSearchStores.map fun p => (p.1, Json.str p.2))),
     ("uploadOperations", Json.obj (s.uploadOperations.map fun p => (p.1, recordToJson p.2)))]

/-- Embedding of `fs.writeFileSync`: the file's content after the write is
the written content, whatever was there before. -/
def writeFileSync (_prior : Option String) (content : String) : String := content

/-- Modelled from the spec: `WorkspaceConfigManager.save.save` is not under src/
(WorkspaceConfig.test.ts lines 147-153 expect
`writeFileSync(path, JSON.stringify(config, null, 2))`). Returns the
backing file's content after the save, given its prior content. -/
def save (prior : Option String) (s : WorkspaceState) : String :=
  writeFileSync prior (jsonStringify 2 (stateToJson s))

/-- A three-file directory listing used as concrete example data. -/
def exEntries3 : List Dirent :=
  [{ name := "a.txt", kind := EntryKind.file },
   { name := "b.txt", kind := EntryKind.file },
   { name := "c.txt", kind := EntryKind.file }]

/-- Concrete example directory path. -/
def exDirPath : FsPath := ["docs"]

/-- Concrete unchanged-judgment marking exactly `docs/b.txt` unchanged. -/
def exUnchanged : FsPath → Bool := fun p => p == ["docs", "b.txt"]

/-- Concrete record matching index.test.ts lines 297-309. -/
def exRecord : UploadOperationRecord :=
  { id := "op-123", status := UploadStatus.in_progress, path := ["test", "dir"],
    storeName := "stores/123", smartSync := true, totalFiles := 10,
    completedFiles := 5, skippedFiles := 2, failedFiles := 0, failedFilesList := [],
    startedAt := "2024-01-01T00:00:00Z", completedAt := none }

/-- Concrete workspace state holding `exRecord` under its id. -/
def exState : WorkspaceState :=
  { researchIds := [], fileSearchStores := [],
    uploadOperations := [("op-123", exRecord)] }

/-- Remote outcome for the concrete failing-run example: the upload of
`d/b` fails, every other upload succeeds. -/
def exRemoteFail : FsPath → ItemResult := fun p =>
  if p == (["d", "b"] : FsPath) then ItemResult.failure "boom" else ItemResult.success

/-- Concrete work list around the failing item. -/
def exWorkPre : List WorkItem := [{ filePath := ["d", "a"], decision := Decision.upload }]

/-- The concrete failing work item. -/
def exWorkW : WorkItem := { filePath := ["d", "b"], decision := Decision.upload }

/-- Concrete work-list tail after the failing item. -/
def exWorkPost : List WorkItem := [{ filePath := ["d", "c"], decision := Decision.upload }]

/-- Concrete freshly created record for run examples. -/
def exRecord0 : UploadOperationRecord := createOperation "op-x" ["d"] "stores/1" false "t0"

theorem basename_pathJoin (dir : FsPath) (name : String) :
    basename (pathJoin dir name) = name := by
  simp [basename, pathJoin]

theorem uploadLoop_ok {Op : Type} (remote : UploadRequest → Except String Op)
    (f : UploadRequest → Op) (hok : ∀ r, remote r = Except.ok (f r))
    (storeName : String) (fps : List FsPath) :
    uploadLoop remote storeName fps =
      Except.ok (fps.map fun fp => f (mkUploadRequest storeName fp)) := by
  induction fps with
  | nil => rfl
  | cons fp rest ih =>
    simp only [uploadLoop, hok, ih]
    rfl

theorem uploadCalls_ok {Op : Type} (remote : UploadRequest → Except String Op)
    (f : UploadRequest → Op) (hok : ∀ r, remote r = Except.ok (f r))
    (storeName : String) (fps : List FsPath) :
    uploadCalls remote storeName fps = fps.map (mkUploadRequest storeName) := by
  induction fps with
  | nil => rfl
  | cons fp rest ih => simp [uploadCalls, hok, ih]

/-- C7: for every directory target, the work list is exactly the immediate
entries of the directory that are regular files, in enumeration order, and
no path lying under a subdirectory (one more component deep) ever appears
in it. -/
theorem c7_work_list_is_immediate_regular_files (dirPath : FsPath) (entries : List Dirent) :
    (∀ p : FsPath, p ∈ regularFilePaths dirPath entries ↔
      ∃ e ∈ entries, e.kind = EntryKind.file ∧ p = dirPath ++ [e.name]) ∧
    regularFilePaths dirPath entries =
      (entries.filter fun e => e.kind == EntryKind.file).map (fun e => dirPath ++ [e.name]) ∧
    (∀ subName childName : String,
      (dirPath ++ [subName, childName]) ∉ regularFilePaths dirPath entries) := by
  refine ⟨?_, rfl, ?_⟩
  · intro p
    simp only [regularFilePaths, pathJoin, List.mem_map, List.mem_filter, beq_iff_eq]
    constructor
    · rintro ⟨e, ⟨he, hf⟩, rfl⟩
      exact ⟨e, he, hf, rfl⟩
    · rintro ⟨e, he, hf, rfl⟩
      exact ⟨e, ⟨he, hf⟩, rfl⟩
  · intro subName childName hmem
    simp only [regularFilePaths, pathJoin, List.mem_map, List.mem_filter] at hmem
    obtain ⟨e, _, he⟩ := hmem
    have hlen := congrArg List.length he
    simp at hlen

/-- C7 witness: in a directory with a regular file `a.txt` and a
subdirectory `sub`, the work list contains `docs/a.txt` and no path below
`sub`. -/
theorem c7_witness :
    (["docs", "a.txt"] : FsPath) ∈
      regularFilePaths ["docs"]
        [{ name := "a.txt", kind := EntryKind.file },
         { name := "sub", kind := EntryKind.directory }] ∧
    (["docs", "sub", "nested.txt"] : FsPath) ∉
      regularFilePaths ["docs"]
        [{ name := "a.txt", kind := EntryKind.file },
         { name := "sub", kind := EntryKind.directory }] := by
  constructor
  · exact (c7_work_list_is_immediate_regular_files ["docs"] _).1 _ |>.mpr
      ⟨{ name := "a.txt", kind := EntryKind.file }, by simp, rfl, rfl⟩
  · exact (c7_work_list_is_immediate_regular_files ["docs"] _).2.2 "sub" "nested.txt"

/-- C10: when every remote call succeeds, `uploadDirectory` issues exactly
one remote call per discovered regular file, sequentially in enumeration
order, each carrying the file's basename as display name, and returns the
remote operation handles in that same order, one per regular file. -/
theorem c10_one_call_per_file {Op : Type} (remote : UploadRequest → Except String Op)
    (f : UploadRequest → Op) (hok : ∀ r, remote r = Except.ok (f r))
    (dirPath : FsPath) (storeName : String) (entries : List Dirent) :
    uploadCalls remote storeName (regularFilePaths dirPath entries) =
      (regularFilePaths dirPath entries).map (mkUploadRequest storeName) ∧
    uploadDirectory remote dirPath storeName entries =
      Except.ok (((regularFilePaths dirPath entries).map (mkUploadRequest storeName)).map f) ∧
    ((regularFilePaths dirPath entries).map (mkUploadRequest storeName)).length =
      (entries.filter fun e => e.kind == EntryKind.file).length ∧
    (∀ e : Dirent, mkUploadRequest storeName (pathJoin dirPath e.name) =
      { fileSearchStoreName := storeName, file := dirPath ++ [e.name],
        displayName := e.name }) := by
  refine ⟨uploadCalls_ok remote f hok storeName _, ?_, by simp [regularFilePaths], ?_⟩
  · rw [uploadDirectory, uploadLoop_ok remote f hok]
    simp
  · intro e
    simp [mkUploadRequest, pathJoin, basename]

/-- C10 witness: a concrete two-file directory with an always-succeeding
remote; both calls are issued in order and two handles are returned. -/
theorem c10_witness :
    @uploadCalls String (fun r => Except.ok r.displayName) "stores/1"
        (regularFilePaths ["d"]
          [{ name := "a.txt", kind := EntryKind.file },
           { name := "b.txt", kind := EntryKind.file }]) =
      [{ fileSearchStoreName := "stores/1", file := ["d", "a.txt"], displayName := "a.txt" },
       { fileSearchStoreName := "stores/1", file := ["d", "b.txt"], displayName := "b.txt" }] ∧
    @uploadDirectory String (fun r => Except.ok r.displayName) ["d"] "stores/1"
        [{ name := "a.txt", kind := EntryKind.file },
         { name := "b.txt", kind := EntryKind.file }] =
      Except.ok ["a.txt", "b.txt"] := by
  have h := @c10_one_call_per_file String (fun r => Except.ok r.displayName)
    (fun r => r.displayName) (fun _ => rfl) ["d"] "stores/1"
    [{ name := "a.txt", kind := EntryKind.file },
     { name := "b.txt", kind := EntryKind.file }]
  refine ⟨?_, ?_⟩
  · rw [h.1]; rfl
  · rw [h.2.1]; rfl

theorem runItems_length (remote : FsPath → ItemResult) (r : UploadOperationRecord)
    (ws : List WorkItem) : ((runItems remote r ws).2).length = ws.length := by
  induction ws generalizing r with
  | nil => rfl
  | cons w ws ih => simp [runItems, ih]

theorem runItems_append (remote : FsPath → ItemResult) (r : UploadOperationRecord)
    (xs ys : List WorkItem) :
    (runItems remote r (xs ++ ys)).1 =
      (runItems remote (runItems remote r xs).1 ys).1 ∧
    (runItems remote r (xs ++ ys)).2 =
      (runItems remote r xs).2 ++ (runItems remote (runItems remote r xs).1 ys).2 := by
  induction xs generalizing r with
  | nil => simp [runItems]
  | cons x xs ih =>
    simp only [List.cons_append, runItems]
    exact ⟨(ih (processItem remote r x)).1, by
      simp [(ih (processItem remote r x)).2]⟩

/-- C1: every record finalized by a run is terminal, and its terminal
status is `completed` exactly when `failedFiles` is zero, `failed`
otherwise; a terminal record can never be `completed` with non-zero
`failedFiles`. -/
theorem c1_terminal_status_iff_no_failures (remote : FsPath → ItemResult)
    (r0 : UploadOperationRecord) (ws : List WorkItem) (finishedAt : String) :
    ((runOperation remote r0 ws finishedAt).1.status = UploadStatus.completed ∨
     (runOperation remote r0 ws finishedAt).1.status = UploadStatus.failed) ∧
    ((runOperation remote r0 ws finishedAt).1.status = UploadStatus.completed ↔
     (runOperation remote r0 ws finishedAt).1.failedFiles = 0) ∧
    ¬((runOperation remote r0 ws finishedAt).1.status = UploadStatus.completed ∧
      (runOperation remote r0 ws finishedAt).1.failedFiles ≠ 0) := by
  simp only [runOperation]
  by_cases h :
    (runItems remote
      { r0 with status := UploadStatus.in_progress, totalFiles := ws.length } ws).1.failedFiles
      = 0 <;>
    simp [h]

/-- C1 witness: an empty run finalizes as `completed` with zero failures. -/
theorem c1_witness :
    (runOperation (fun _ => ItemResult.success) exRecord0 [] "t1").1.status =
      UploadStatus.completed ∧
    (runOperation (fun _ => ItemResult.success) exRecord0 [] "t1").1.failedFiles = 0 := by
  have h := c1_terminal_status_iff_no_failures (fun _ => ItemResult.success) exRecord0 [] "t1"
  exact ⟨h.2.1.mpr (by decide), by decide⟩

/-- C2: for a work-list item whose upload call fails, the run records the
failure (increments `failedFiles` and appends the `{file, error}` pair) in
the snapshot persisted for that item, and then continues: every item still
contributes one persisted snapshot, and the final record is the one
obtained by processing the remaining items after the failure. -/
theorem c2_item_failure_recorded_and_never_aborts (remote : FsPath → ItemResult)
    (r : UploadOperationRecord) (pre post : List WorkItem) (w : WorkItem) (e : String)
    (hdec : w.decision = Decision.upload)
    (hfail : remote w.filePath = ItemResult.failure e) :
    ((runItems remote r (pre ++ w :: post)).2).length = (pre ++ w :: post).length ∧
    ((runItems remote r (pre ++ w :: post)).2)[pre.length]? =
      some { (runItems remote r pre).1 with
             failedFiles := (runItems remote r pre).1.failedFiles + 1,
             failedFilesList := (runItems remote r pre).1.failedFilesList ++
               [{ file := w.filePath, error := e }] } ∧
    (runItems remote r (pre ++ w :: post)).1 =
      (runItems remote (processItem remote (runItems remote r pre).1 w) post).1 := by
  have happ := runItems_append remote r pre (w :: post)
  refine ⟨runItems_length remote r _, ?_, ?_⟩
  · rw [happ.2]
    rw [List.getElem?_append_right (by rw [runItems_length])]
    rw [runItems_length]
    simp only [Nat.sub_self, runItems]
    simp [processItem, hdec, hfail]
  · rw [happ.1]
    simp [runItems]

/-- C2 witness: a three-item run whose middle upload fails still produces
three persisted snapshots and finishes by processing the final item. -/
theorem c2_witness :
    ((runItems exRemoteFail exRecord0 (exWorkPre ++ exWorkW :: exWorkPost)).2).length = 3 ∧
    (runItems exRemoteFail exRecord0 (exWorkPre ++ exWorkW :: exWorkPost)).1 =
      (runItems exRemoteFail
        (processItem exRemoteFail (runItems exRemoteFail exRecord0 exWorkPre).1 exWorkW)
        exWorkPost).1 := by
  have h := c2_item_failure_recorded_and_never_aborts exRemoteFail exRecord0
    exWorkPre exWorkPost exWorkW "boom" rfl (by decide)
  exact ⟨h.1.trans (by decide), h.2.2⟩

/-- C3: the planner assigns `upload` to every discovered file when
`smartSync` is false; when `smartSync` is true it assigns `skip` exactly to
the files judged unchanged; the planned paths are the discovered regular
files in order; and on the concrete 3-file directory with one unchanged
file the plan has 2 uploads and 1 skip (3 uploads without smart sync). -/
theorem c3_plan_decisions (unchanged : FsPath → Bool) (dirPath : FsPath)
    (entries : List Dirent) :
    (∀ item ∈ planDirectory false unchanged dirPath entries,
      item.decision = Decision.upload) ∧
    (∀ item ∈ planDirectory true unchanged dirPath entries,
      (item.decision = Decision.skip ↔ unchanged item.filePath = true)) ∧
    (∀ smartSync, (planDirectory smartSync unchanged dirPath entries).map
      (fun i => i.filePath) = regularFilePaths dirPath entries) ∧
    ((planDirectory true exUnchanged exDirPath exEntries3).filter
      (fun i => i.decision == Decision.upload)).length = 2 ∧
    ((planDirectory true exUnchanged exDirPath exEntries3).filter
      (fun i => i.decision == Decision.skip)).length = 1 ∧
    ((planDirectory false exUnchanged exDirPath exEntries3).filter
      (fun i => i.decision == Decision.upload)).length = 3 := by
  refine ⟨?_, ?_, ?_, by decide, by decide, by decide⟩
  · intro item h
    obtain ⟨fp, _, rfl⟩ := List.mem_map.mp h
    simp
  · intro item h
    obtain ⟨fp, _, rfl⟩ := List.mem_map.mp h
    by_cases hu : unchanged fp <;> simp [hu]
  · intro smartSync
    simp only [planDirectory, List.map_map]
    exact List.map_id' _

/-- C3 witness: in the concrete 3-file plan with smart sync, the item for
`docs/b.txt` is skipped exactly because it is judged unchanged. -/
theorem c3_witness :
    (({ filePath := ["docs", "b.txt"], decision := Decision.skip } : WorkItem).decision =
      Decision.skip ↔ exUnchanged ["docs", "b.txt"] = true) := by
  exact (c3_plan_decisions exUnchanged exDirPath exEntries3).2.1 _ (by decide)

/-- C4: whenever the backing document is absent, or present but rejected
by JSON parsing and schema validation, `load` returns a result (totality —
it never raises), the result's state is the empty state, and a warning is
logged exactly in the present-but-unparsable case. -/
theorem c4_load_defaults_and_never_raises (parse : String → Option WorkspaceState)
    (doc : Option String)
    (h : doc = none ∨ ∃ raw, doc = some raw ∧ parse raw = none) :
    (WorkspaceConfigManager.load parse doc).state =
      { researchIds := [], fileSearchStores := [], uploadOperations := [] } ∧
    ((WorkspaceConfigManager.load parse doc).warned = true ↔
      ∃ raw, doc = some raw ∧ parse raw = none) := by
  rcases h with rfl | ⟨raw, rfl, hp⟩
  · simp [WorkspaceConfigManager.load, emptyWorkspaceState]
  · simp [WorkspaceConfigManager.load, hp, emptyWorkspaceState]

/-- C4 witness: a present but unparsable document loads as the empty state
with a warning. -/
theorem c4_witness :
    (WorkspaceConfigManager.load (fun _ => none) (some "not json")).state =
      { researchIds := [], fileSearchStores := [], uploadOperations := [] } ∧
    (WorkspaceConfigManager.load (fun _ => none) (some "not json")).warned = true := by
  have h := c4_load_defaults_and_never_raises (fun _ => none) (some "not json")
    (Or.inr ⟨"not json", rfl, rfl⟩)
  exact ⟨h.1, h.2.mpr ⟨"not json", rfl, rfl⟩⟩

/-- C5: an upload request against a path that does not exist, or exists but
is neither a regular file nor a directory, returns the input error to the
caller with the state — in particular the `uploadOperations` mapping —
left unchanged; no record is created. -/
theorem c5_input_error_leaves_store_unchanged (s : WorkspaceState) (target : FsPath)
    (storeName : String) (smartSync : Bool) (opId : String) (now : String)
    (stat : EntryKind) :
    fileSearchUpload s target false stat storeName smartSync opId now =
      (Except.error ("Path not found: " ++ pathToString target), s) ∧
    fileSearchUpload s target true EntryKind.other storeName smartSync opId now =
      (Except.error ("Path is not a file or directory: " ++ pathToString target), s) ∧
    (fileSearchUpload s target false stat storeName smartSync opId
      now).2.uploadOperations = s.uploadOperations ∧
    (fileSearchUpload s target true EntryKind.other storeName smartSync opId
      now).2.uploadOperations = s.uploadOperations := by
  refine ⟨rfl, rfl, rfl, rfl⟩

/-- C5 witness: the concrete non-existent path of index.test.ts lines
185-198 yields the input error and an unchanged store. -/
theorem c5_witness :
    fileSearchUpload exState ["", "nonexistent"] false EntryKind.other "stores/123" false
        "op-9" "t0" =
      (Except.error "Path not found: /nonexistent", exState) := by
  exact (c5_input_error_leaves_store_unchanged exState ["", "nonexistent"] "stores/123"
    false "op-9" "t0" EntryKind.other).1

/-- C6: the status reporter returns the stored record unchanged together
with the derived percentage `round(100 * (completedFiles + skippedFiles +
failedFiles) / totalFiles)`, taken as 0 when `totalFiles` is 0; for 10
total files with 5 completed, 2 skipped and 0 failed it equals 70. -/
theorem c6_report_projection (s : WorkspaceState) (opId : String)
    (r : UploadOperationRecord)
    (h : WorkspaceConfigManager.getUploadOperation s opId = some r) :
    report s opId =
      some { record := r,
             percentage := percentage r.totalFiles
               (r.completedFiles + r.skippedFiles + r.failedFiles) } ∧
    (∀ t done : Nat, t ≠ 0 →
      percentage t done = mathRound (100 * (done : ℚ) / (t : ℚ))) ∧
    (∀ done : Nat, percentage 0 done = 0) ∧
    percentage 10 (5 + 2 + 0) = 70 := by
  refine ⟨by simp [report, h], fun t done ht => by simp [percentage, ht],
    fun done => rfl, ?_⟩
  have hval : 100 * ((5 + 2 + 0 : Nat) : ℚ) / ((10 : Nat) : ℚ) + 1 / 2 = 141 / 2 := by
    push_cast
    norm_num
  rw [percentage, if_neg (by norm_num), mathRound, hval]
  rw [Int.floor_eq_iff]
  constructor <;> norm_num

/-- C6 witness: the stored record of index.test.ts lines 297-309 reports
percentage 70 and is returned verbatim. -/
theorem c6_witness :
    report exState "op-123" = some { record := exRecord, percentage := 70 } := by
  have h := c6_report_projection exState "op-123" exRecord rfl
  exact h.1.trans (by
    rw [show percentage exRecord.totalFiles
      (exRecord.completedFiles + exRecord.skippedFiles + exRecord.failedFiles) = 70
      from h.2.2.2])

/-- C8: starting from a state respecting the no-duplicates invariant,
calling `addResearchId` twice with the same id leaves exactly one
occurrence of it, the second call performs no save, and the second call
does not change the state. -/
theorem c8_addResearchId_idempotent (s : WorkspaceState) (x : String)
    (h : s.researchIds.count x ≤ 1) :
    ((WorkspaceConfigManager.addResearchId
        (WorkspaceConfigManager.addResearchId s x).1 x).1.researchIds.count x = 1) ∧
    (WorkspaceConfigManager.addResearchId
        (WorkspaceConfigManager.addResearchId s x).1 x).2 = false ∧
    (WorkspaceConfigManager.addResearchId
        (WorkspaceConfigManager.addResearchId s x).1 x).1 =
      (WorkspaceConfigManager.addResearchId s x).1 := by
  by_cases hx : x ∈ s.researchIds
  · have h0 : s.researchIds.count x ≠ 0 := by
      simpa [List.count_eq_zero] using hx
    have e1 : WorkspaceConfigManager.addResearchId s x = (s, false) := by
      simp [WorkspaceConfigManager.addResearchId, hx]
    rw [show (WorkspaceConfigManager.addResearchId s x).1 = s from by rw [e1], e1]
    refine ⟨?_, rfl, rfl⟩
    show s.researchIds.count x = 1
    omega
  · have h0 : s.researchIds.count x = 0 := by
      simpa [List.count_eq_zero] using hx
    have hx2 : x ∈ ({ s with researchIds := s.researchIds ++ [x] } :
        WorkspaceState).researchIds := by simp
    have e1 : WorkspaceConfigManager.addResearchId s x =
        ({ s with researchIds := s.researchIds ++ [x] }, true) := by
      simp [WorkspaceConfigManager.addResearchId, hx]
    have e2 : WorkspaceConfigManager.addResearchId
        { s with researchIds := s.researchIds ++ [x] } x =
        ({ s with researchIds := s.researchIds ++ [x] }, false) := by
      simp [WorkspaceConfigManager.addResearchId, hx2]
    rw [show (WorkspaceConfigManager.addResearchId s x).1 =
      { s with researchIds := s.researchIds ++ [x] } from by rw [e1], e2]
    refine ⟨?_, rfl, rfl⟩
    show (s.researchIds ++ [x]).count x = 1
    simp [List.count_append, h0]

/-- C8 witness: adding the same research id twice to the empty state keeps
one occurrence and skips the second save. -/
theorem c8_witness :
    ((WorkspaceConfigManager.addResearchId
        (WorkspaceConfigManager.addResearchId emptyWorkspaceState "research-123").1
        "research-123").1.researchIds.count "research-123" = 1) ∧
    (WorkspaceConfigManager.addResearchId
        (WorkspaceConfigManager.addResearchId emptyWorkspaceState "research-123").1
        "research-123").2 = false := by
  have h := c8_addResearchId_idempotent emptyWorkspaceState "research-123" (by decide)
  exact ⟨h.1, h.2.1⟩

theorem addComma_indent_dvd (n : Nat) : ∀ ls : List JLine,
    (∀ p ∈ ls, n ∣ p.1) → ∀ p ∈ addComma ls, n ∣ p.1 := by
  intro ls
  induction ls with
  | nil => intro _ p hp; simp [addComma] at hp
  | cons a rest ih =>
    intro h p hp
    cases rest with
    | nil =>
      obtain ⟨m, s⟩ := a
      simp only [addComma, List.mem_singleton] at hp
      subst hp
      exact h (m, s) (by simp)
    | cons b rest2 =>
      simp only [addComma] at hp
      rcases List.mem_cons.mp hp with h1 | hp2
      · rw [h1]
        exact h a (by simp)
      · exact ih (fun q hq => h q (List.mem_cons_of_mem _ hq)) _ hp2

theorem joinItems_indent_dvd (n : Nat) : ∀ lss : List (List JLine),
    (∀ ls ∈ lss, ∀ p ∈ ls, n ∣ p.1) → ∀ p ∈ joinItems lss, n ∣ p.1 := by
  intro lss
  induction lss with
  | nil => intro _ p hp; simp [joinItems] at hp
  | cons ls rest ih =>
    intro h p hp
    cases rest with
    | nil =>
      simp only [joinItems] at hp
      exact h ls (by simp) p hp
    | cons ls2 rest2 =>
      simp only [joinItems] at hp
      rcases List.mem_append.mp hp with h1 | h2
      · exact addComma_indent_dvd n ls (h ls (by simp)) p h1
      · exact ih (fun l hl q hq => h l (List.mem_cons_of_mem _ hl) q hq) p h2

theorem bumpFirst_indent_dvd (n k : Nat) (hk : n ∣ k) : ∀ ls : List JLine,
    (∀ p ∈ ls, n ∣ p.1) → ∀ p ∈ bumpFirst k ls, n ∣ p.1 := by
  intro ls h p hp
  cases ls with
  | nil => simp [bumpFirst] at hp
  | cons a rest =>
    obtain ⟨m, s⟩ := a
    simp only [bumpFirst] at hp
    rcases List.mem_cons.mp hp with rfl | h2
    · exact Dvd.dvd.add hk (h (m, s) (by simp))
    · exact h _ (List.mem_cons_of_mem _ h2)

theorem withKey_indent_dvd (n : Nat) (k : String) : ∀ ls : List JLine,
    (∀ p ∈ ls, n ∣ p.1) → ∀ p ∈ withKey k ls, n ∣ p.1 := by
  intro ls h p hp
  cases ls with
  | nil =>
    simp only [withKey, List.mem_singleton] at hp
    simp [hp]
  | cons a rest =>
    obtain ⟨m, s⟩ := a
    simp only [withKey] at hp
    rcases List.mem_cons.mp hp with rfl | h2
    · exact h (m, s) (by simp)
    · exact h _ (List.mem_cons_of_mem _ h2)

theorem renderLines_indent_dvd (ind d : Nat) (j : Json) :
    ∀ p ∈ renderLines ind d j, ind ∣ p.1 := by
  match j with
  | Json.str s =>
    intro p hp
    simp only [renderLines, List.mem_singleton] at hp
    simp [hp]
  | Json.num n =>
    intro p hp
    simp only [renderLines, List.mem_singleton] at hp
    simp [hp]
  | Json.bool b =>
    intro p hp
    simp only [renderLines, List.mem_singleton] at hp
    simp [hp]
  | Json.arr items =>
    intro p hp
    by_cases he : items.isEmpty
    · simp only [renderLines, if_pos he, List.mem_singleton] at hp
      simp [hp]
    · simp only [renderLines, if_neg he] at hp
      rcases List.mem_cons.mp hp with rfl | hp2
      · simp
      · rcases List.mem_append.mp hp2 with h1 | h2
        · refine joinItems_indent_dvd ind _ ?_ p h1
          intro ls hls q hq
          obtain ⟨x, hx, rfl⟩ := List.mem_map.mp hls
          refine bumpFirst_indent_dvd ind _ (dvd_mul_right ind (d + 1)) _ ?_ q hq
          exact renderLines_indent_dvd ind (d + 1) x.1
        · simp only [List.mem_singleton] at h2
          simp [h2]
  | Json.obj fields =>
    intro p hp
    by_cases he : fields.isEmpty
    · simp only [renderLines, if_pos he, List.mem_singleton] at hp
      simp [hp]
    · simp only [renderLines, if_neg he] at hp
      rcases List.mem_cons.mp hp with rfl | hp2
      · simp
      · rcases List.mem_append.mp hp2 with h1 | h2
        · refine joinItems_indent_dvd ind _ ?_ p h1
          intro ls hls q hq
          obtain ⟨x, hx, rfl⟩ := List.mem_map.mp hls
          refine bumpFirst_indent_dvd ind _ (dvd_mul_right ind (d + 1)) _ ?_ q hq
          exact withKey_indent_dvd ind x.1.1 _
            (renderLines_indent_dvd ind (d + 1) x.1.2)
        · simp only [List.mem_singleton] at h2
          simp [h2]
termination_by sizeOf j
decreasing_by
  · simp_wf
    have h := List.sizeOf_lt_of_mem x.2
    omega
  · simp_wf
    have h := List.sizeOf_lt_of_mem x.2
    have h2 : sizeOf (x.1).2 < sizeOf x.1 := by
      obtain ⟨k, v⟩ := x.1
      simp only [Prod.mk.sizeOf_spec]
      omega
    omega

/-- C9: `save` writes the full workspace document serialized by the
2-space-indent pretty printer, ignoring — hence replacing — any prior file
content; every emitted line is indented by a multiple of 2 spaces. -/
theorem c9_save_pretty_printed_two_space (prior : Option String) (s : WorkspaceState) :
    save prior s = jsonStringify 2 (stateToJson s) ∧
    (∀ prior2, save prior2 s = save prior s) ∧
    (∀ p ∈ renderLines 2 0 (stateToJson s), 2 ∣ p.1) ∧
    jsonStringify 2 (stateToJson s) =
      String.intercalate "\n"
        ((renderLines 2 0 (stateToJson s)).map fun p => indentSpaces p.1 ++ p.2) := by
  exact ⟨rfl, fun _ => rfl, renderLines_indent_dvd 2 0 _, rfl⟩

/-- C9 witness: saving the empty state over stale content yields the
2-space serialization, whose opening line has indentation 0, a multiple
of 2. -/
theorem c9_witness :
    save (some "stale content") emptyWorkspaceState =
      jsonStringify 2 (stateToJson emptyWorkspaceState) ∧
    2 ∣ ((0, "\x7b") : JLine).1 := by
  have h := c9_save_pretty_printed_two_space (some "stale content") emptyWorkspaceState
  refine ⟨h.1, h.2.2.1 (0, "\x7b") ?_⟩
  have hs : stateToJson emptyWorkspaceState =
      Json.obj [("researchIds", Json.arr []), ("fileSearchStores", Json.obj []),
                ("uploadOperations", Json.obj [])] := rfl
  rw [hs]
  simp [renderLines]

end DeepResearch
